import Mathlib

set_option maxRecDepth 100000
set_option linter.unusedVariables false

/-!
Verification development for the bowlly-mcp-server core logic.

Shallow embedding of:
* the token-bucket rate limiter (`src/rate-limit.ts`): `TokenBucket`,
  `TokenBucketManager`;
* the `search_products` tool pipeline (`src/tools/search-products.ts`):
  ingredient term parsing and matching, client-side sorting, client-side
  pagination and the suggestion step.

JS numbers (timestamps, token counts, nutrition values) are modelled as
rationals; list/cursor arithmetic is on `Nat`.  JS strings are modelled by
Lean `String` (a wrapper around `List Char`); all string helpers used in
definitions are written by structural recursion over `String.data` so that
concrete instances evaluate in the kernel.
-/

/-! ## Rate limiter (src/rate-limit.ts) -/

/-- Result shape of `TokenBucket.consume()` (`RateLimitCheck` in
`rate-limit.ts`): `RateLimitInfo & { allowed: boolean }`. -/
structure RateLimitCheck where
  allowed : Bool
  limit : ℚ
  remaining : ℤ
  resetEpochMs : ℚ
  deriving Repr, DecidableEq

/-- Model of JS `Math.floor` on a rational: floor toward negative infinity. -/
def mathFloor (q : ℚ) : ℤ := Int.fdiv q.num q.den

/-- State of a `TokenBucket` (fields `limit`, `windowMs`, `tokens`,
`lastRefill` of the TS class). -/
structure TokenBucket where
  limit : ℚ
  windowMs : ℚ
  tokens : ℚ
  lastRefill : ℚ
  deriving Repr, DecidableEq

/-- The TS constructor `new TokenBucket(limit, windowMs)`: starts full, with
`lastRefill = Date.now()` (the construction instant, passed explicitly). -/
def TokenBucket.init (limit windowMs now : ℚ) : TokenBucket :=
  { limit := limit, windowMs := windowMs, tokens := limit, lastRefill := now }

/-- `TokenBucket.consume()` from `rate-limit.ts`, with `Date.now()` passed
explicitly as `now`.  Proportional refill when time elapsed, clamp to
capacity, then deny if `tokens ≤ 0`, else decrement and admit. -/
def TokenBucket.consume (b : TokenBucket) (now : ℚ) : TokenBucket × RateLimitCheck :=
  let elapsed := now - b.lastRefill
  let b1 :=
    if 0 < elapsed then
      { b with tokens := min b.limit (b.tokens + elapsed / b.windowMs * b.limit),
               lastRefill := now }
    else b
  let resetEpochMs := b1.lastRefill + b1.windowMs
  if b1.tokens ≤ 0 then
    (b1, { allowed := false, limit := b.limit, remaining := 0, resetEpochMs := resetEpochMs })
  else
    ({ b1 with tokens := b1.tokens - 1 },
     { allowed := true, limit := b.limit, remaining := mathFloor (b1.tokens - 1),
       resetEpochMs := resetEpochMs })

/-- Bucket states reachable from a fresh `TokenBucket(cap, win)` by `consume`
calls at arbitrary instants. -/
inductive TokenBucket.Reachable (cap win : ℚ) : TokenBucket → Prop
  | init (t0 : ℚ) : TokenBucket.Reachable cap win (TokenBucket.init cap win t0)
  | step (b : TokenBucket) (now : ℚ) (h : TokenBucket.Reachable cap win b) :
      TokenBucket.Reachable cap win (b.consume now).1

/-- Iterated `consume` at a fixed instant (back-to-back calls with no time
advance), keeping only the bucket state. -/
def TokenBucket.consumeN (b : TokenBucket) (now : ℚ) : Nat → TokenBucket
  | 0 => b
  | n + 1 => ((b.consumeN now n).consume now).1

/-- State of a `TokenBucketManager` (`rate-limit.ts`): shared capacity and
window plus the per-client bucket map, modelled as an association list. -/
structure TokenBucketManager where
  limit : ℚ
  windowMs : ℚ
  buckets : List (String × TokenBucket)
  deriving Repr, DecidableEq

/-- `Map.prototype.set` on the bucket map: replace the entry for the key, or
append a new entry. -/
def upsertBucket : List (String × TokenBucket) → String → TokenBucket →
    List (String × TokenBucket)
  | [], clientId, b => [(clientId, b)]
  | (k, v) :: rest, clientId, b =>
    if k == clientId then (k, b) :: rest else (k, v) :: upsertBucket rest clientId b

/-- `TokenBucketManager.consume(clientId)`: lazily create the client's bucket
(a fresh `TokenBucket(limit, windowMs)` constructed now), then consume from
it, storing the mutated bucket back. -/
def TokenBucketManager.consume (m : TokenBucketManager) (clientId : String) (now : ℚ) :
    TokenBucketManager × RateLimitCheck :=
  let bucket := (m.buckets.lookup clientId).getD (TokenBucket.init m.limit m.windowMs now)
  let r := bucket.consume now
  ({ m with buckets := upsertBucket m.buckets clientId r.1 }, r.2)

/-- A sequence of `consume` calls for one client at the given instants. -/
def TokenBucketManager.consumeSeq (m : TokenBucketManager) (clientId : String) :
    List ℚ → TokenBucketManager
  | [] => m
  | t :: ts => ((m.consume clientId t).1).consumeSeq clientId ts

/-! ## String helpers

JS string operations used by `search-products.ts`, re-implemented by
structural recursion over `String.data` (kernel-evaluable). -/

/-- JS `String.prototype.toLowerCase` (ASCII range, which is all the source
data uses; Lean's `Char.toLower` lowers exactly ASCII letters). -/
def toLowerCase (s : String) : String := String.mk (s.data.map Char.toLower)

/-- JS regex `\w`: ASCII letters, digits and underscore. -/
def isWordChar (c : Char) : Bool := c.isAlpha || c.isDigit || c == '_'

/-- JS regex `\s` (the ASCII part): space, tab, line feed, carriage return,
vertical tab, form feed. -/
def isSpaceChar (c : Char) : Bool :=
  c == ' ' || c == '\t' || c == '\n' || c == '\r' || c == '\x0b' || c == '\x0c'

/-- JS `String.prototype.trim` (ASCII whitespace). -/
def trimStr (s : String) : String :=
  String.mk (((s.data.dropWhile isSpaceChar).reverse.dropWhile isSpaceChar).reverse)

/-- JS `String.prototype.split(",")`, under the characters of the string. -/
def splitCommaAux : List Char → List Char → List String
  | [], acc => [String.mk acc.reverse]
  | c :: rest, acc =>
    if c == ',' then String.mk acc.reverse :: splitCommaAux rest []
    else splitCommaAux rest (c :: acc)

/-- JS `String.prototype.split(",")`. -/
def splitComma (s : String) : List String := splitCommaAux s.data []

/-- JS `Array.prototype.join(" ")`. -/
def joinSpace : List String → String
  | [] => ""
  | [x] => x
  | x :: xs => x ++ " " ++ joinSpace xs

/-- Does `pat` occur in `s` starting exactly at index `i`? -/
def matchAt (s pat : List Char) (i : Nat) : Bool :=
  (s.drop i).take pat.length == pat

/-- JS `String.prototype.includes`: `pat` occurs somewhere in `s`. -/
def strContains (s pat : List Char) : Bool :=
  (List.range (s.length + 1)).any (fun i => matchAt s pat i)

/-- Is the character at index `i` of `s` a word character (out-of-range
counts as non-word, as at the ends of a JS regex subject)? -/
def wordAt (s : List Char) (i : Nat) : Bool :=
  match s[i]? with
  | some c => isWordChar c
  | none => false

/-- JS regex `\b` holds at position `i` of `s`: the word-ness of the
character before `i` differs from the word-ness of the character at `i`. -/
def boundaryAt (s : List Char) (i : Nat) : Bool :=
  (match i with
   | 0 => false
   | j + 1 => wordAt s j) != wordAt s i

/-- Test of the regex `` new RegExp(`\b${escapeRegex(value)}\b`, "i") `` from
`search-products.ts` against subject `s`: `escapeRegex` makes the pattern a
literal, so the regex matches iff `pat` occurs at some position with a `\b`
boundary on each side.  Callers pass both sides already lowercased, which
subsumes the `i` flag. -/
def wordBoundaryMatch (pat s : List Char) : Bool :=
  (List.range (s.length + 1)).any
    (fun i => matchAt s pat i && boundaryAt s i && boundaryAt s (i + pat.length))

/-! ## Ingredient matching (search-products.ts helpers) -/

/-- `isSafeIngredient` from `search-products.ts`:
`/^[\w\s\-'.()]+$/i` — nonempty, every character a word character,
whitespace, or one of `-`, `'`, `.`, `(`, `)`. -/
def isSafeIngredient (ingredient : String) : Bool :=
  !ingredient.data.isEmpty &&
    ingredient.data.all (fun c =>
      isWordChar c || isSpaceChar c ||
        c == '-' || c == '\'' || c == '.' || c == '(' || c == ')')

/-- Match type of a filter term (the source's `"exact" | "partial"`;
`partial` is a reserved word in Lean, rendered `substr`). -/
inductive MatchType where
  | exact
  | substr
  deriving Repr, DecidableEq

/-- The quoted-term test `term.match(/^"(.+)"$/)`: a leading and a trailing
double quote with at least one character between them, none of which is a
line terminator (JS `.` does not match those); yields the inner literal. -/
def stripQuotes (term : String) : Option String :=
  let cs := term.data
  if cs.length ≥ 3 && cs.head? == some '"' && cs.getLast? == some '"' &&
      (cs.drop 1).dropLast.all
        (fun c => c != '\n' && c != '\r' && c != '\u2028' && c != '\u2029') then
    some (String.mk ((cs.drop 1).dropLast))
  else none

/-- `parseMatchType` from `search-products.ts`: a quoted term is exact with
the quotes stripped; anything else is partial; the value is lowercased. -/
def parseMatchType (term : String) : MatchType × String :=
  match stripQuotes term with
  | some inner => (MatchType.exact, toLowerCase inner)
  | none => (MatchType.substr, toLowerCase term)

/-! ## Catalog data model (schemas/agent-api.ts) -/

/-- `nutrition` object of `AgentProductListItemSchema` (all fields
optional). -/
structure Nutrition where
  protein : Option ℚ := none
  fat : Option ℚ := none
  fiber : Option ℚ := none
  moisture : Option ℚ := none
  deriving Repr, DecidableEq

/-- `derivedMetrics` object of `AgentProductListItemSchema`. -/
structure DerivedMetrics where
  meatScore : Option ℚ := none
  carbEstimated : Option ℚ := none
  deriving Repr, DecidableEq

/-- `AgentProductListItemSchema` from `schemas/agent-api.ts` (the candidate
shape the search tool consumes). -/
structure AgentProductItem where
  id : String
  name : String
  brand : String
  detailUrl : String := ""
  imageUrl : Option String := none
  form : Option String := none
  lifeStageTags : Option (List String) := none
  conditionTags : Option (List String) := none
  ingredientsPreview : Option (List String) := none
  ingredientsFull : Option (List String) := none
  nutrition : Option Nutrition := none
  derivedMetrics : Option DerivedMetrics := none
  deriving Repr, DecidableEq

/-- The searched fields of `matchIngredient`: name, brand, condition tags and
ingredients preview (not the full ingredient list), lowercased. -/
def searchFields (p : AgentProductItem) : List String :=
  ([p.name, p.brand] ++ p.conditionTags.getD [] ++ p.ingredientsPreview.getD []).map
    toLowerCase

/-- `matchIngredient` from `search-products.ts`.  Exact matching validates
the term with `isSafeIngredient` and falls back to a substring test on
unsafe terms; safe exact terms use the word-boundary regex; partial terms
use a substring test. -/
def matchIngredient (ingredient : String) (p : AgentProductItem)
    (matchType : MatchType) : Bool :=
  let fields := searchFields p
  match matchType with
  | MatchType.exact =>
    if !isSafeIngredient ingredient then
      fields.any (fun f => strContains f.data (toLowerCase ingredient).data)
    else
      fields.any (fun f => wordBoundaryMatch ingredient.data f.data)
  | MatchType.substr =>
    fields.any (fun f => strContains f.data ingredient.data)

/-! ## Client-side sorting (sortProducts in search-products.ts) -/

/-- Stable insertion of `x` into a list sorted by `key` ascending: `x` goes
after every element whose key is ≤ its own. -/
def insertByKey {α : Type} (key : α → ℚ) (x : α) : List α → List α
  | [] => [x]
  | y :: ys => if key y ≤ key x then y :: insertByKey key x ys else x :: y :: ys

/-- Stable sort by `key` ascending (insertion sort, processing the list left
to right).  This is the unique stable ascending-by-key permutation, matching
the ES2019+ requirement that `Array.prototype.sort` be stable with the
comparator `key a - key b`. -/
def sortByKey {α : Type} (key : α → ℚ) (l : List α) : List α :=
  l.foldl (fun acc x => insertByKey key x acc) []

/-- The sort key corresponding to each comparator branch of `sortProducts`:
each branch is `cmp(a, b) = k a - k b` for the key below (descending
comparators negate the metric; missing values default per branch; an
unrecognised sort key gives the constant comparator 0, a stable no-op). -/
def sortKeyFor (sortBy : String) (p : AgentProductItem) : ℚ :=
  if sortBy == "protein_desc" then -((p.nutrition.bind Nutrition.protein).getD 0)
  else if sortBy == "carbs_asc" then (p.derivedMetrics.bind DerivedMetrics.carbEstimated).getD 999
  else if sortBy == "fat_desc" then -((p.nutrition.bind Nutrition.fat).getD 0)
  else if sortBy == "moisture_desc" then -((p.nutrition.bind Nutrition.moisture).getD 0)
  else 0

/-- `sortProducts` from `search-products.ts`, generic over the element type
like the source's `<T extends AgentProductItem>` (the `toItem` projection
plays the role of the subtype constraint). -/
def sortProducts {α : Type} (toItem : α → AgentProductItem) (items : List α)
    (sortBy : String) : List α :=
  sortByKey (fun x => sortKeyFor sortBy (toItem x)) items

/-! ## Search pipeline (registerSearchTool handler, steps 2 and 4–7) -/

/-- `SearchableProduct`: a candidate plus its pre-computed `_searchText`. -/
structure SearchableProduct where
  item : AgentProductItem
  searchText : String
  deriving Repr, DecidableEq

/-- `_searchText` computation (step just after Zod validation): name, brand,
condition tags and ingredients preview joined with spaces, lowercased. -/
def computeSearchText (p : AgentProductItem) : String :=
  toLowerCase (joinSpace
    ([p.name, p.brand] ++ p.conditionTags.getD [] ++ p.ingredientsPreview.getD []))

/-- The searchable wrapping of a fetched batch. -/
def searchableOf (items : List AgentProductItem) : List SearchableProduct :=
  items.map (fun it => { item := it, searchText := computeSearchText it })

/-- Tool parameters after Zod validation (`limit` defaulted to 10 and
`cursor` to 0 by the schema; both integral here — the schema bounds them but
does not force integrality, which matters to no claim). -/
structure SearchParams where
  query : Option String := none
  form : Option String := none
  conditions : Option String := none
  includeIngredients : Option String := none
  excludeIngredients : Option String := none
  minProtein : Option ℚ := none
  maxCarbs : Option ℚ := none
  sortBy : Option String := none
  limit : Nat := 10
  cursor : Nat := 0
  deriving Repr, DecidableEq

/-- JS truthiness of an optional string (`undefined` and `""` are falsy). -/
def truthyStr : Option String → Bool
  | none => false
  | some s => !s.data.isEmpty

/-- `meta` of `AgentProductsResponseSchema`. -/
structure AgentMeta where
  total : Nat
  limit : Nat
  offset : Nat
  hasMore : Option Bool := none
  deriving Repr, DecidableEq

/-- A validated Agent API products response (items plus meta). -/
structure AgentBatch where
  items : List AgentProductItem
  meta : AgentMeta
  deriving Repr, DecidableEq

/-- `DEFAULT_BATCH_SIZE` from `search-products.ts`. -/
def DEFAULT_BATCH_SIZE : Nat := 50

/-- `CLIENT_SIDE_PROCESSING_BATCH_SIZE` from `search-products.ts`. -/
def CLIENT_SIDE_PROCESSING_BATCH_SIZE : Nat := 200

/-- `needsClientSideProcessing`: a sort key or any ingredient filter input
forces client-side processing. -/
def needsClientSideProcessing (p : SearchParams) : Bool :=
  truthyStr p.sortBy || truthyStr p.includeIngredients || truthyStr p.excludeIngredients

/-- The dynamic batch size (P1-022):
`min(params.limit ? params.limit * 2 : DEFAULT_BATCH_SIZE, 200)`. -/
def batchSize (p : SearchParams) : Nat :=
  min (if p.limit != 0 then p.limit * 2 else DEFAULT_BATCH_SIZE)
    CLIENT_SIDE_PROCESSING_BATCH_SIZE

/-- The `limit`/`offset` the handler puts into `apiParams` for the upstream
fetch. -/
structure ApiPlan where
  limit : Nat
  offset : Nat
  deriving Repr, DecidableEq

/-- Upstream paging parameters: the full batch at offset 0 in
client-processed mode, the user's own paging otherwise. -/
def apiPlan (p : SearchParams) : ApiPlan :=
  if needsClientSideProcessing p then { limit := batchSize p, offset := 0 }
  else { limit := p.limit, offset := p.cursor }

/-- Splitting a comma-separated term parameter
(`params.x ? params.x.split(",").map(s => s.trim()) : []`). -/
def termsOf (o : Option String) : List String :=
  match o with
  | some s => if s.data.isEmpty then [] else (splitComma s).map trimStr
  | none => []

/-- `hasIngredientData`: some candidate carries a nonempty preview or full
ingredient list. -/
def hasIngredientData (items : List AgentProductItem) : Bool :=
  items.any (fun it =>
    decide ((it.ingredientsPreview.getD []).length > 0) ||
      decide ((it.ingredientsFull.getD []).length > 0))

/-- The per-candidate filter predicate (step 4): the candidate must match
every include term and no exclude term, each term parsed by
`parseMatchType` and evaluated by `matchIngredient`. -/
def productPasses (includeTerms excludeTerms : List String) (p : AgentProductItem) : Bool :=
  let parsedInc := includeTerms.map parseMatchType
  let parsedExc := excludeTerms.map parseMatchType
  (parsedInc.isEmpty || parsedInc.all (fun t => matchIngredient t.2 p t.1)) &&
    (parsedExc.isEmpty || !(parsedExc.any (fun t => matchIngredient t.2 p t.1)))

/-- A relaxed term (step 4b): lowercased, with a surrounding quote pair
stripped (`term.toLowerCase().replace(/^"(.+)"$/, "$1")`). -/
def relaxedTerm (term : String) : String :=
  match stripQuotes (toLowerCase term) with
  | some inner => inner
  | none => toLowerCase term

/-- The relaxed pass of the suggestion step: always-substring matching of
the relaxed terms against `_searchText`, with SOME-semantics on the include
terms, over the unfiltered batch. -/
def relaxedMatches (includeTerms excludeTerms : List String)
    (items : List SearchableProduct) : List SearchableProduct :=
  let rInc := includeTerms.map relaxedTerm
  let rExc := excludeTerms.map relaxedTerm
  items.filter (fun it =>
    (rInc.isEmpty || rInc.any (fun t => strContains it.searchText.data t.data)) &&
      (rExc.isEmpty || !(rExc.any (fun t => strContains it.searchText.data t.data))))

/-- The capability-mismatch validation message of step 4. -/
def capabilityMismatchMsg : String :=
  "Ingredient include/exclude filtering is not available for this environment (list results do not include ingredient previews). Use query/conditions filters instead."

/-- The `filterNote` attached whenever ingredient filtering ran. -/
def filterNoteMsg : String :=
  "Ingredient filtering uses ingredients preview with partial matching by default. Use quotes for exact matching (e.g., \"chicken meal\")."

/-- First suggestion string of step 4b. -/
def noExactMatchesMsg : String :=
  "No exact matches found. Try broadening your search or check ingredient spelling."

/-- Second suggestion string of step 4b. -/
def relaxedCountMsg (n : Nat) : String :=
  "Found " ++ toString n ++ " products with relaxed matching."

/-- The trimmed projection of a candidate returned to the caller (step 7). -/
structure SearchResultItem where
  id : String
  name : String
  brand : String
  form : Option String
  ingredientsPreview : List String
  detailUrl : String
  deriving Repr, DecidableEq

/-- Step 7 mapping to the result item shape. -/
def toResultItem (sp : SearchableProduct) : SearchResultItem :=
  { id := sp.item.id, name := sp.item.name, brand := sp.item.brand,
    form := sp.item.form, ingredientsPreview := sp.item.ingredientsPreview.getD [],
    detailUrl := sp.item.detailUrl }

/-- The `SearchResult` shape (rate-limit metadata, identical on every
branch, omitted). -/
structure SearchResult where
  items : List SearchResultItem
  total : Nat
  hasMore : Bool
  cursor : Nat
  filterNote : Option String := none
  suggestions : Option (List String) := none
  deriving Repr, DecidableEq

/-- Outcome of the handler body after admission: the capability-mismatch
validation error of step 4, or a success result. -/
inductive SearchOutcome where
  | validationError (message : String)
  | success (result : SearchResult)
  deriving Repr, DecidableEq

/-- Steps 6–7: `total` is the current item count; in client-processed mode
slice `[cursor, cursor+limit)` locally and compare `cursor + limit` against
the local total, otherwise pass items through and use upstream metadata
(falling back to `meta.total > cursor + limit`); the cursor advances by the
returned count only when `hasMore`. -/
def buildResult (p : SearchParams) (b : AgentBatch) (items : List SearchableProduct)
    (filterNote : Option String) (suggestions : Option (List String)) : SearchResult :=
  let needsClient := needsClientSideProcessing p
  let total := items.length
  let sliced := if needsClient then (items.drop p.cursor).take p.limit else items
  let hasMore :=
    if needsClient then decide (p.cursor + p.limit < total)
    else b.meta.hasMore.getD (decide (b.meta.total > p.cursor + p.limit))
  let nextCursor := if hasMore then p.cursor + sliced.length else p.cursor
  { items := sliced.map toResultItem,
    total := if needsClient then total else b.meta.total,
    hasMore := hasMore,
    cursor := nextCursor,
    filterNote := filterNote,
    suggestions := suggestions }

/-- Step 5: sort only when a sort key was supplied. -/
def maybeSort (p : SearchParams) (items : List SearchableProduct) :
    List SearchableProduct :=
  if truthyStr p.sortBy then sortProducts SearchableProduct.item items (p.sortBy.getD "")
  else items

/-- The handler body of `registerSearchTool` after admission and Zod
validation (steps 4–7), on a fetched batch `b`: reject with the
capability-mismatch error when ingredient filtering is requested but no
candidate carries ingredient data; otherwise filter, compute suggestions on
an empty filtered set, sort, paginate and build the result.  (Step 8's
affiliate-link safeguard only aborts, never alters a result, and is outside
the claims considered here.) -/
def runSearch (p : SearchParams) (b : AgentBatch) : SearchOutcome :=
  let searchable := searchableOf b.items
  let filterRequested := truthyStr p.includeIngredients || truthyStr p.excludeIngredients
  if filterRequested && !hasIngredientData b.items then
    SearchOutcome.validationError capabilityMismatchMsg
  else
    let includeTerms := termsOf p.includeIngredients
    let excludeTerms := termsOf p.excludeIngredients
    let filtered :=
      if filterRequested then
        searchable.filter (fun sp => productPasses includeTerms excludeTerms sp.item)
      else searchable
    let suggestions :=
      if filterRequested && filtered.isEmpty then
        let relaxed := relaxedMatches includeTerms excludeTerms searchable
        if relaxed.length > 0 then
          some [noExactMatchesMsg, relaxedCountMsg relaxed.length]
        else none
      else none
    let filterNote := if filterRequested then some filterNoteMsg else none
    SearchOutcome.success (buildResult p b (maybeSort p filtered) filterNote suggestions)

/-! ## Concrete instances used by counterexamples and witnesses -/

/-- Bucket state after: construct `TokenBucket(1, 1000)` at t = 0, consume at
t = 0, consume again at t = 500 (half a window later). -/
def c2Trace : TokenBucket := (((TokenBucket.init 1 1000 0).consume 0).1.consume 500).1

/-- A fresh manager with capacity 5 per minute-like window and no buckets. -/
def c6Mgr : TokenBucketManager := { limit := 5, windowMs := 1000, buckets := [] }

/-- First candidate of the spec's matching scenario:
`ingredientsPreview = ["chicken meal", "rice"]`. -/
def c7Cand1 : AgentProductItem :=
  { id := "p1", name := "Alpha", brand := "Beta",
    ingredientsPreview := some ["chicken meal", "rice"] }

/-- Second candidate of the spec's matching scenario:
`ingredientsPreview = ["chicken", "fish broth"]`. -/
def c7Cand2 : AgentProductItem :=
  { id := "p2", name := "Gamma", brand := "Delta",
    ingredientsPreview := some ["chicken", "fish broth"] }

/-- A candidate whose name contains `a_b` preceded by a word character. -/
def c8Prod : AgentProductItem := { id := "p3", name := "ca_b", brand := "x" }

/-- A candidate with no `derivedMetrics` (missing `carbEstimated`). -/
def c3Missing : AgentProductItem := { id := "m", name := "M", brand := "B" }

/-- A candidate with `carbEstimated = 999`. -/
def c3Val999 : AgentProductItem :=
  { id := "n", name := "N", brand := "B",
    derivedMetrics := some { carbEstimated := some 999 } }

/-- A candidate with `carbEstimated = 500`. -/
def c3Val500 : AgentProductItem :=
  { id := "o", name := "O", brand := "B",
    derivedMetrics := some { carbEstimated := some 500 } }

/-- A minimal candidate with no optional data. -/
def cPlain : AgentProductItem := { id := "x", name := "A", brand := "B" }

/-- Client-processed-mode request: `sortBy` set, limit 1, cursor 0. -/
def c1P : SearchParams := { sortBy := some "protein_desc", limit := 1, cursor := 0 }

/-- A one-item batch. -/
def c1B : AgentBatch :=
  { items := [cPlain], meta := { total := 1, limit := 2, offset := 0 } }

/-- The result `runSearch c1P c1B` produces. -/
def c1Result : SearchResult :=
  { items := [{ id := "x", name := "A", brand := "B", form := none,
                ingredientsPreview := [], detailUrl := "" }],
    total := 1, hasMore := false, cursor := 0 }

/-- Request with only an ingredient filter supplied. -/
def c4P : SearchParams := { includeIngredients := some "chicken" }

/-- A batch whose only candidate has no preview and no full ingredient
data. -/
def c4NoDataB : AgentBatch :=
  { items := [cPlain], meta := { total := 1, limit := 2, offset := 0 } }

/-- The spec's end-to-end zero-result scenario: quoted `"chick"`. -/
def c9P : SearchParams := { includeIngredients := some "\"chick\"" }

/-- A batch whose only ingredient strings contain `chicken`. -/
def c9B : AgentBatch :=
  { items := [c7Cand2], meta := { total := 1, limit := 2, offset := 0 } }

/-- The result `runSearch c9P c9B` produces. -/
def c9Result : SearchResult :=
  { items := [], total := 0, hasMore := false, cursor := 0,
    filterNote := some filterNoteMsg,
    suggestions := some [noExactMatchesMsg, relaxedCountMsg 1] }

/-- Client-processed-mode request whose cursor is past twice the limit. -/
def c10P : SearchParams := { sortBy := some "protein_desc", limit := 1, cursor := 2 }

/-- The result `runSearch c10P c1B` produces. -/
def c10Result : SearchResult :=
  { items := [], total := 1, hasMore := false, cursor := 2 }

/-! ## Rate limiter theorems -/

/-- One `consume` step keeps configuration, keeps `tokens` in `(-1, limit]`,
removes at most one token, and removes none on a denial. -/
theorem consume_step_bounds (b : TokenBucket) (now : ℚ)
    (hcap : 0 < b.limit) (hwin : 0 < b.windowMs)
    (hlo : -1 < b.tokens) (hhi : b.tokens ≤ b.limit) :
    (b.consume now).1.limit = b.limit ∧ (b.consume now).1.windowMs = b.windowMs ∧
    (-1 < (b.consume now).1.tokens ∧ (b.consume now).1.tokens ≤ b.limit) ∧
    b.tokens - 1 ≤ (b.consume now).1.tokens ∧
    ((b.consume now).2.allowed = false → b.tokens ≤ (b.consume now).1.tokens) := by
  simp only [TokenBucket.consume]
  split_ifs with h1 h2 h2
  · -- refill, then deny
    have hadd : 0 < (now - b.lastRefill) / b.windowMs * b.limit := by positivity
    have hle_min : b.tokens ≤ min b.limit (b.tokens + (now - b.lastRefill) / b.windowMs * b.limit) :=
      le_min hhi (by linarith)
    have hmin_le : min b.limit (b.tokens + (now - b.lastRefill) / b.windowMs * b.limit) ≤ b.limit :=
      min_le_left _ _
    exact ⟨rfl, rfl, ⟨by linarith, hmin_le⟩, by linarith, fun _ => hle_min⟩
  · -- refill, then admit
    have hadd : 0 < (now - b.lastRefill) / b.windowMs * b.limit := by positivity
    have hle_min : b.tokens ≤ min b.limit (b.tokens + (now - b.lastRefill) / b.windowMs * b.limit) :=
      le_min hhi (by linarith)
    have hmin_le : min b.limit (b.tokens + (now - b.lastRefill) / b.windowMs * b.limit) ≤ b.limit :=
      min_le_left _ _
    push_neg at h2
    exact ⟨rfl, rfl, ⟨by linarith, by linarith⟩, by linarith, fun h => by simp at h⟩
  · -- no refill, deny
    exact ⟨rfl, rfl, ⟨hlo, hhi⟩, by linarith, fun _ => le_refl _⟩
  · -- no refill, admit
    push_neg at h2
    refine ⟨rfl, rfl, ⟨?_, ?_⟩, ?_, fun h => by simp at h⟩ <;> simp only [] <;> linarith

/-- Every reachable bucket state keeps the configured capacity and window and
has `tokens ∈ (-1, cap]`. -/
theorem reachable_invariant (cap win : ℚ) (hcap : 0 < cap) (hwin : 0 < win)
    {b : TokenBucket} (h : TokenBucket.Reachable cap win b) :
    b.limit = cap ∧ b.windowMs = win ∧ -1 < b.tokens ∧ b.tokens ≤ cap := by
  induction h with
  | init t0 => exact ⟨rfl, rfl, by simp [TokenBucket.init]; linarith, by simp [TokenBucket.init]⟩
  | step b now hb ih =>
    obtain ⟨hl, hw, hlo, hhi⟩ := ih
    have hs := consume_step_bounds b now (by rw [hl]; exact hcap) (by rw [hw]; exact hwin)
      hlo (by rw [hl]; exact hhi)
    refine ⟨hs.1.trans hl, hs.2.1.trans hw, hs.2.2.1.1, ?_⟩
    rw [← hl]
    exact hs.2.2.1.2

/-- C2 (amended): for every reachable bucket state of a `TokenBucket` with
positive capacity and window, the token count stays in the interval
`(-1, capacity]` — it never exceeds the capacity, and each `consume` removes
at most one token (none at all when the request is denied), so the count is
non-decreasing apart from the single decrement of an admitted request.  The
claimed lower bound 0 is wrong: an admitted request after a fractional
refill drives `tokens` below 0 (see the counterexample). -/
theorem c2_token_range (cap win : ℚ) (hcap : 0 < cap) (hwin : 0 < win)
    (b : TokenBucket) (h : TokenBucket.Reachable cap win b) :
    (-1 < b.tokens ∧ b.tokens ≤ cap) ∧
    ∀ now : ℚ,
      ((b.consume now).2.allowed = false → b.tokens ≤ (b.consume now).1.tokens) ∧
      b.tokens - 1 ≤ (b.consume now).1.tokens := by
  obtain ⟨hl, hw, hlo, hhi⟩ := reachable_invariant cap win hcap hwin h
  refine ⟨⟨hlo, hhi⟩, fun now => ?_⟩
  have hs := consume_step_bounds b now (by rw [hl]; exact hcap) (by rw [hw]; exact hwin)
    hlo (by rw [hl]; exact hhi)
  exact ⟨hs.2.2.2.2, hs.2.2.2.1⟩

/-- Witness for C2 at capacity 1, window 1000, a fresh bucket. -/
theorem c2_token_range_witness :
    (0 : ℚ) < 1 ∧ (0 : ℚ) < 1000 ∧
    (-1 < (TokenBucket.init 1 1000 0).tokens ∧ (TokenBucket.init 1 1000 0).tokens ≤ 1) :=
  ⟨by norm_num, by norm_num,
    (c2_token_range 1 1000 (by norm_num) (by norm_num) _ (TokenBucket.Reachable.init 0)).1⟩

/-- C2 counterexample: the claimed invariant `tokens ∈ [0, capacity]` fails.
With capacity 1 and window 1000 ms, consuming at t = 0 empties the bucket;
consuming again at t = 500 refills half a token, the request is admitted,
and the stored token count ends at -1/2 < 0.  The state is reachable by the
code's own `consume` steps. -/
theorem c2_counterexample :
    TokenBucket.Reachable 1 1000 c2Trace ∧ c2Trace.tokens < 0 := by
  constructor
  · exact TokenBucket.Reachable.step _ 500
      (TokenBucket.Reachable.step _ 0 (TokenBucket.Reachable.init 0))
  · norm_num [c2Trace, TokenBucket.consume, TokenBucket.init]

/-- Consuming at the very instant of the last refill performs no refill:
only the deny/decrement step runs. -/
theorem consume_now_eq (s : TokenBucket) (now : ℚ) (h : s.lastRefill = now) :
    s.consume now =
      if s.tokens ≤ 0 then
        (s, { allowed := false, limit := s.limit, remaining := 0,
              resetEpochMs := s.lastRefill + s.windowMs })
      else
        ({ s with tokens := s.tokens - 1 },
         { allowed := true, limit := s.limit, remaining := mathFloor (s.tokens - 1),
           resetEpochMs := s.lastRefill + s.windowMs }) := by
  simp [TokenBucket.consume, h]

/-- After `k ≤ cap` back-to-back consumptions at the construction instant, a
fresh bucket of capacity `cap` holds exactly `cap - k` tokens. -/
theorem consumeN_state (cap : ℕ) (win t0 : ℚ) (k : ℕ) (hk : k ≤ cap) :
    (TokenBucket.init (cap : ℚ) win t0).consumeN t0 k =
      { limit := (cap : ℚ), windowMs := win, tokens := (cap : ℚ) - (k : ℚ),
        lastRefill := t0 } := by
  induction k with
  | zero => simp [TokenBucket.consumeN, TokenBucket.init]
  | succ n ih =>
    have hn : n ≤ cap := Nat.le_of_succ_le hk
    have hlt : n < cap := Nat.lt_of_succ_le hk
    have hpos : ¬ ((cap : ℚ) - (n : ℚ) ≤ 0) := by
      push_neg
      have : (n : ℚ) < (cap : ℚ) := by exact_mod_cast hlt
      linarith
    rw [TokenBucket.consumeN, ih hn, consume_now_eq _ _ rfl]
    simp only [hpos, if_false]
    congr 1
    push_cast
    ring

/-- C5: a fresh bucket with capacity `cap > 0` whose `consume()` calls all
happen at the construction instant (no time advance, hence within one
window) admits each of the first `cap` calls and denies the `cap + 1`-th
with `remaining = 0`. -/
theorem c5_admits_exactly_capacity (cap : ℕ) (hcap : 0 < cap) (win t0 : ℚ) :
    (∀ k, k < cap →
      (((TokenBucket.init (cap : ℚ) win t0).consumeN t0 k).consume t0).2.allowed = true) ∧
    (((TokenBucket.init (cap : ℚ) win t0).consumeN t0 cap).consume t0).2.allowed = false ∧
    (((TokenBucket.init (cap : ℚ) win t0).consumeN t0 cap).consume t0).2.remaining = 0 := by
  have hdeny : (((TokenBucket.init (cap : ℚ) win t0).consumeN t0 cap).consume t0).2 =
      { allowed := false, limit := (cap : ℚ), remaining := 0,
        resetEpochMs := t0 + win } := by
    rw [consumeN_state cap win t0 cap (le_refl cap), consume_now_eq _ _ rfl]
    simp
  refine ⟨fun k hk => ?_, by rw [hdeny], by rw [hdeny]⟩
  rw [consumeN_state cap win t0 k (Nat.le_of_lt hk), consume_now_eq _ _ rfl]
  have hpos : ¬ ((cap : ℚ) - (k : ℚ) ≤ 0) := by
    push_neg
    have : (k : ℚ) < (cap : ℚ) := by exact_mod_cast hk
    linarith
  simp [hpos]

/-- Witness for C5 at capacity 2: the second call is admitted, the third is
denied with `remaining = 0`. -/
theorem c5_admits_exactly_capacity_witness :
    0 < 2 ∧
    (((TokenBucket.init ((2 : ℕ) : ℚ) 1000 0).consumeN 0 1).consume 0).2.allowed = true ∧
    (((TokenBucket.init ((2 : ℕ) : ℚ) 1000 0).consumeN 0 2).consume 0).2.allowed = false ∧
    (((TokenBucket.init ((2 : ℕ) : ℚ) 1000 0).consumeN 0 2).consume 0).2.remaining = 0 := by
  obtain ⟨ha, hd, hr⟩ := c5_admits_exactly_capacity 2 (by norm_num) 1000 0
  exact ⟨by norm_num, ha 1 (by norm_num), hd, hr⟩

/-- Updating client `a`'s bucket entry leaves any other client's lookup
unchanged. -/
theorem lookup_upsert_ne (l : List (String × TokenBucket)) (a b : String)
    (x : TokenBucket) (h : a ≠ b) :
    (upsertBucket l a x).lookup b = l.lookup b := by
  induction l with
  | nil =>
    have hb : (b == a) = false := beq_eq_false_iff_ne.mpr (Ne.symm h)
    simp [upsertBucket, List.lookup, hb]
  | cons hd tl ih =>
    obtain ⟨k, v⟩ := hd
    by_cases hk : (k == a) = true
    · have hka : k = a := eq_of_beq hk
      have hb : (b == k) = false := by
        rw [hka]
        exact beq_eq_false_iff_ne.mpr (Ne.symm h)
      simp [upsertBucket, hk, List.lookup, hb]
    · simp only [upsertBucket, hk, if_false, List.lookup]
      by_cases hbk : (b == k) = true
      · simp [hbk]
      · simp only [Bool.not_eq_true] at hbk
        simp [hbk, ih]

/-- A `consume` for client `a` does not change another client's bucket entry
nor the manager's configuration. -/
theorem mgrConsume_other (m : TokenBucketManager) (a b : String) (now : ℚ) (h : a ≠ b) :
    ((m.consume a now).1.buckets.lookup b = m.buckets.lookup b) ∧
    (m.consume a now).1.limit = m.limit ∧ (m.consume a now).1.windowMs = m.windowMs := by
  unfold TokenBucketManager.consume
  exact ⟨lookup_upsert_ne _ _ _ _ h, rfl, rfl⟩

/-- A whole sequence of `consume` calls for client `a` does not change
another client's bucket entry nor the manager's configuration. -/
theorem consumeSeq_other (a b : String) (h : a ≠ b) (ts : List ℚ)
    (m : TokenBucketManager) :
    ((m.consumeSeq a ts).buckets.lookup b = m.buckets.lookup b) ∧
    (m.consumeSeq a ts).limit = m.limit ∧ (m.consumeSeq a ts).windowMs = m.windowMs := by
  induction ts generalizing m with
  | nil => exact ⟨rfl, rfl, rfl⟩
  | cons t ts ih =>
    obtain ⟨h1, h2, h3⟩ := mgrConsume_other m a b t h
    obtain ⟨g1, g2, g3⟩ := ih (m.consume a t).1
    exact ⟨g1.trans h1, g2.trans h2, g3.trans h3⟩

/-- C6: for two distinct identities `a ≠ b` in one `TokenBucketManager`, any
sequence of `consume(a)` calls (at arbitrary instants, including ones that
exhaust `a`'s bucket) leaves `b`'s stored bucket state unchanged and leaves
the result of `b`'s next `consume` (at any instant) exactly what it would
have been without `a`'s calls. -/
theorem c6_identity_isolation (a b : String) (hne : a ≠ b)
    (m : TokenBucketManager) (ts : List ℚ) :
    (m.consumeSeq a ts).buckets.lookup b = m.buckets.lookup b ∧
    ∀ now : ℚ, ((m.consumeSeq a ts).consume b now).2 = (m.consume b now).2 := by
  obtain ⟨h1, h2, h3⟩ := consumeSeq_other a b hne ts m
  refine ⟨h1, fun now => ?_⟩
  unfold TokenBucketManager.consume
  rw [h1, h2, h3]

/-- Witness for C6: identities "a" and "b" on a fresh manager; two calls for
"a"; "b"'s entry is untouched and "b"'s next consume result is unchanged. -/
theorem c6_identity_isolation_witness :
    ("a" : String) ≠ "b" ∧
    (c6Mgr.consumeSeq "a" [0, 100]).buckets.lookup "b" = c6Mgr.buckets.lookup "b" ∧
    ((c6Mgr.consumeSeq "a" [0, 100]).consume "b" 200).2 = (c6Mgr.consume "b" 200).2 := by
  obtain ⟨h1, h2⟩ := c6_identity_isolation "a" "b" (by decide) c6Mgr [0, 100]
  exact ⟨by decide, h1, h2 200⟩

/-! ## Ingredient matching theorems -/

/-- C7: on the two candidates with previews `["chicken meal", "rice"]` and
`["chicken", "fish broth"]`, the quoted term `"chicken meal"` parses as an
exact (word-boundary) term and matches only the first candidate, while the
unquoted term `chicken` parses as a partial (substring) term and matches
both. -/
theorem c7_quoted_exact_unquoted_partial :
    parseMatchType "\"chicken meal\"" = (MatchType.exact, "chicken meal") ∧
    parseMatchType "chicken" = (MatchType.substr, "chicken") ∧
    matchIngredient "chicken meal" c7Cand1 MatchType.exact = true ∧
    matchIngredient "chicken meal" c7Cand2 MatchType.exact = false ∧
    matchIngredient "chicken" c7Cand1 MatchType.substr = true ∧
    matchIngredient "chicken" c7Cand2 MatchType.substr = true := by
  decide

/-- C8 (amended): the guarded character set is exactly the regex class
`[\w\s\-'.()]` — ASCII letters, digits, underscore, whitespace and
`-'.()` — not the claimed letters/digits/space/`-'.()` set (underscore and
non-space whitespace are also allowed, see the counterexample); for exact
terms within this set the word-boundary pattern is applied to every
searched field, and for exact terms containing any character outside it the
match silently degrades to a lowercased substring test over the same
fields. -/
theorem c8_exact_match_guard (ingredient : String) (p : AgentProductItem) :
    (isSafeIngredient ingredient = true ↔
      ingredient.data ≠ [] ∧ ∀ c ∈ ingredient.data,
        (isWordChar c || isSpaceChar c || c == '-' || c == '\'' || c == '.' ||
          c == '(' || c == ')') = true) ∧
    matchIngredient ingredient p MatchType.exact =
      (if isSafeIngredient ingredient then
        (searchFields p).any (fun f => wordBoundaryMatch ingredient.data f.data)
      else
        (searchFields p).any (fun f => strContains f.data (toLowerCase ingredient).data)) := by
  constructor
  · simp [isSafeIngredient, List.isEmpty_iff, List.all_eq_true]
  · unfold matchIngredient
    by_cases h : isSafeIngredient ingredient = true
    · simp [h]
    · simp only [Bool.not_eq_true] at h
      simp [h]

/-- C8 counterexample: the term `a_b` contains `_`, which lies outside the
claim's allowed set (letters, digits, spaces, `-'.()`), yet
`isSafeIngredient` accepts it, the word-boundary pattern is applied (and
fails on a candidate named `ca_b`), while the claimed substring degradation
would have matched — so exact matching does not degrade to a substring test
for every term with a character outside the claimed set. -/
theorem c8_counterexample :
    ("a_b" : String).data.any (fun c => !(c.isAlpha || c.isDigit || c == ' ' ||
      c == '-' || c == '\'' || c == '.' || c == '(' || c == ')')) = true ∧
    isSafeIngredient "a_b" = true ∧
    matchIngredient "a_b" c8Prod MatchType.exact = false ∧
    (searchFields c8Prod).any
      (fun f => strContains f.data (toLowerCase "a_b").data) = true := by
  decide

/-! ## Sorting theorems -/

/-- Membership in an insertion is membership in the inserted element or the
original list. -/
theorem mem_insertByKey {α : Type} (key : α → ℚ) (x y : α) (l : List α) :
    y ∈ insertByKey key x l ↔ y = x ∨ y ∈ l := by
  induction l with
  | nil => simp [insertByKey]
  | cons z zs ih =>
    by_cases h : key z ≤ key x
    · rw [insertByKey, if_pos h]
      simp only [List.mem_cons, ih]
      tauto
    · rw [insertByKey, if_neg h]
      simp only [List.mem_cons]

/-- Insertion preserves being sorted (pairwise ≤ on keys). -/
theorem pairwise_insertByKey {α : Type} (key : α → ℚ) (x : α) (l : List α)
    (h : l.Pairwise (fun a b => key a ≤ key b)) :
    (insertByKey key x l).Pairwise (fun a b => key a ≤ key b) := by
  induction l with
  | nil => simp [insertByKey]
  | cons z zs ih =>
    rw [List.pairwise_cons] at h
    obtain ⟨hz, hzs⟩ := h
    by_cases hc : key z ≤ key x
    · rw [insertByKey, if_pos hc, List.pairwise_cons]
      refine ⟨fun y hy => ?_, ih hzs⟩
      rcases (mem_insertByKey key x y zs).mp hy with rfl | hmem
      · exact hc
      · exact hz y hmem
    · rw [insertByKey, if_neg hc, List.pairwise_cons]
      push_neg at hc
      refine ⟨fun y hy => ?_, List.Pairwise.cons hz hzs⟩
      rcases List.mem_cons.mp hy with rfl | hmem
      · exact le_of_lt hc
      · exact le_trans (le_of_lt hc) (hz y hmem)

/-- `sortByKey` produces a list sorted by its key (pairwise ≤). -/
theorem pairwise_sortByKey {α : Type} (key : α → ℚ) (l : List α) :
    (sortByKey key l).Pairwise (fun a b => key a ≤ key b) := by
  suffices h : ∀ acc : List α, acc.Pairwise (fun a b => key a ≤ key b) →
      (l.foldl (fun acc x => insertByKey key x acc) acc).Pairwise
        (fun a b => key a ≤ key b) by
    exact h [] List.Pairwise.nil
  induction l with
  | nil => exact fun acc hacc => hacc
  | cons x xs ih =>
    intro acc hacc
    exact ih _ (pairwise_insertByKey key x acc hacc)

/-- `insertByKey` grows the length by one. -/
theorem length_insertByKey {α : Type} (key : α → ℚ) (x : α) (l : List α) :
    (insertByKey key x l).length = l.length + 1 := by
  induction l with
  | nil => rfl
  | cons z zs ih =>
    by_cases h : key z ≤ key x
    · simp [insertByKey, h, ih]
    · simp [insertByKey, h]

/-- `sortByKey` preserves the length. -/
theorem length_sortByKey {α : Type} (key : α → ℚ) (l : List α) :
    (sortByKey key l).length = l.length := by
  suffices h : ∀ acc : List α,
      (l.foldl (fun acc x => insertByKey key x acc) acc).length = acc.length + l.length by
    simpa [sortByKey] using h []
  induction l with
  | nil => simp
  | cons x xs ih =>
    intro acc
    rw [List.foldl_cons, ih (insertByKey key x acc), length_insertByKey, List.length_cons]
    omega

/-- The `carbs_asc` comparator key. -/
theorem sortKeyFor_carbs (p : AgentProductItem) :
    sortKeyFor "carbs_asc" p = (p.derivedMetrics.bind DerivedMetrics.carbEstimated).getD 999 :=
  rfl

/-- C3 (amended): after `sortProducts` with `carbs_asc`, every candidate
with a missing `derivedMetrics.carbEstimated` (treated as 999) is placed
after every candidate with a numeric value strictly below 999.  For a
present value of exactly 999 the comparator ties with a missing value and
the stable sort keeps input order, so "≤ 999" in the original claim is
wrong (see the counterexample). -/
theorem c3_missing_carbs_sorted_last (l : List AgentProductItem) (i j : ℕ)
    (hi : i < (sortProducts id l "carbs_asc").length)
    (hj : j < (sortProducts id l "carbs_asc").length)
    (hmiss : ((sortProducts id l "carbs_asc").get ⟨i, hi⟩).derivedMetrics.bind
      DerivedMetrics.carbEstimated = none)
    (v : ℚ)
    (hval : ((sortProducts id l "carbs_asc").get ⟨j, hj⟩).derivedMetrics.bind
      DerivedMetrics.carbEstimated = some v)
    (hlt : v < 999) :
    j < i := by
  have hp : (sortProducts id l "carbs_asc").Pairwise
      (fun a b => sortKeyFor "carbs_asc" (id a) ≤ sortKeyFor "carbs_asc" (id b)) :=
    pairwise_sortByKey _ l
  rw [List.pairwise_iff_get] at hp
  rcases lt_trichotomy i j with hij | hij | hij
  · exfalso
    have hij' := hp ⟨i, hi⟩ ⟨j, hj⟩ hij
    rw [id_eq, id_eq, sortKeyFor_carbs, sortKeyFor_carbs, hmiss, hval] at hij'
    simp only [Option.getD_none, Option.getD_some] at hij'
    linarith
  · exfalso
    subst hij
    rw [hmiss] at hval
    exact Option.noConfusion hval
  · exact hij

/-- Witness for C3 at the list `[c3Val500, c3Missing]`: the missing-carb
candidate sits at index 1, after the 500-valued candidate at index 0. -/
theorem c3_missing_carbs_sorted_last_witness :
    ((sortProducts id [c3Val500, c3Missing] "carbs_asc").get
      ⟨1, by decide⟩).derivedMetrics.bind DerivedMetrics.carbEstimated = none ∧
    ((sortProducts id [c3Val500, c3Missing] "carbs_asc").get
      ⟨0, by decide⟩).derivedMetrics.bind DerivedMetrics.carbEstimated = some 500 ∧
    (0 : ℕ) < 1 := by
  refine ⟨by decide, by decide, ?_⟩
  exact c3_missing_carbs_sorted_last [c3Val500, c3Missing] 1 0 (by decide) (by decide)
    (by decide) 500 (by decide) (by norm_num)

/-- C3 counterexample: against the claim's "≤ 999", sorting `[missing, 999]`
by `carbs_asc` keeps the missing-carb candidate first (both map to key 999,
the comparator returns 0, and the stable sort preserves input order), so
the missing candidate is not placed after a candidate whose numeric value
is 999 ≤ 999. -/
theorem c3_counterexample :
    c3Missing.derivedMetrics.bind DerivedMetrics.carbEstimated = none ∧
    c3Val999.derivedMetrics.bind DerivedMetrics.carbEstimated = some 999 ∧
    (999 : ℚ) ≤ 999 ∧
    sortProducts id [c3Missing, c3Val999] "carbs_asc" = [c3Missing, c3Val999] := by
  exact ⟨by decide, by decide, le_refl _, by decide⟩

/-! ## Pipeline theorems -/

/-- Sorting (or not) never changes the item count. -/
theorem maybeSort_length (p : SearchParams) (l : List SearchableProduct) :
    (maybeSort p l).length = l.length := by
  unfold maybeSort
  split
  · exact length_sortByKey _ _
  · rfl

/-- Sorting an empty list yields an empty list. -/
theorem maybeSort_nil (p : SearchParams) : maybeSort p [] = [] := by
  unfold maybeSort
  split
  · rfl
  · rfl

/-- Every success result of `runSearch` is `buildResult` applied to a
(possibly filtered, possibly sorted) sub-batch of the fetched items. -/
theorem runSearch_success_shape (p : SearchParams) (b : AgentBatch) (r : SearchResult)
    (hr : runSearch p b = SearchOutcome.success r) :
    ∃ (pre : List SearchableProduct) (note : Option String) (sugg : Option (List String)),
      pre.length ≤ b.items.length ∧ r = buildResult p b (maybeSort p pre) note sugg := by
  unfold runSearch at hr
  simp only [] at hr
  split at hr
  · exact absurd hr (by simp)
  · rw [SearchOutcome.success.injEq] at hr
    refine ⟨_, _, _, ?_, hr.symm⟩
    by_cases hf : (truthyStr p.includeIngredients || truthyStr p.excludeIngredients) = true
    · rw [if_pos hf]
      calc ((searchableOf b.items).filter
            (fun sp => productPasses (termsOf p.includeIngredients)
              (termsOf p.excludeIngredients) sp.item)).length
          ≤ (searchableOf b.items).length := List.length_filter_le _ _
        _ = b.items.length := by simp [searchableOf]
    · rw [if_neg hf]
      simp [searchableOf]

/-- In client-processed mode `buildResult` slices `[cursor, cursor+limit)`,
reports the local count as total, compares `cursor + limit` against it for
`hasMore`, and advances the cursor by the slice length exactly when
`hasMore`. -/
theorem buildResult_client (p : SearchParams) (b : AgentBatch)
    (items : List SearchableProduct) (note : Option String)
    (sugg : Option (List String)) (h : needsClientSideProcessing p = true) :
    buildResult p b items note sugg =
      { items := ((items.drop p.cursor).take p.limit).map toResultItem,
        total := items.length,
        hasMore := decide (p.cursor + p.limit < items.length),
        cursor := if p.cursor + p.limit < items.length
                  then p.cursor + ((items.drop p.cursor).take p.limit).length
                  else p.cursor,
        filterNote := note, suggestions := sugg } := by
  simp only [buildResult, h, if_true, List.length_map]
  by_cases hc : p.cursor + p.limit < items.length
  · simp [hc]
  · simp [hc]

/-- C1 (amended): in client-processed mode the returned result satisfies
`hasMore = (cursor + limit < total)` with `total` the filtered item count,
and `nextCursor = cursor + returnedCount` exactly when `hasMore`; when
`hasMore` is false the cursor is returned unchanged (`nextCursor = cursor`),
not `cursor + returnedCount` as the original claim states for every case
(see the counterexample). -/
theorem c1_pagination (p : SearchParams) (b : AgentBatch)
    (hmode : needsClientSideProcessing p = true)
    (r : SearchResult) (hr : runSearch p b = SearchOutcome.success r) :
    (r.hasMore = true ↔ p.cursor + p.limit < r.total) ∧
    (r.hasMore = true → r.cursor = p.cursor + r.items.length) ∧
    (r.hasMore = false → r.cursor = p.cursor) := by
  obtain ⟨pre, note, sugg, hlen, rfl⟩ := runSearch_success_shape p b r hr
  rw [buildResult_client p b (maybeSort p pre) note sugg hmode]
  by_cases hc : p.cursor + p.limit < (maybeSort p pre).length
  · simp [hc]
  · simp [hc]

/-- Witness for C1 at a concrete client-processed request. -/
theorem c1_pagination_witness :
    needsClientSideProcessing c1P = true ∧
    (c1Result.hasMore = true ↔ c1P.cursor + c1P.limit < c1Result.total) ∧
    (c1Result.hasMore = false → c1Result.cursor = c1P.cursor) := by
  have h := c1_pagination c1P c1B (by decide) c1Result (by decide)
  exact ⟨by decide, h.1, h.2.2⟩

/-- C1 counterexample: with `sortBy` set (client-processed mode), limit 1,
cursor 0 and a one-item batch, the returned slice has one item but the
returned cursor is 0, not `cursor + returnedCount = 1`: the code leaves the
cursor unchanged when `hasMore` is false. -/
theorem c1_counterexample :
    needsClientSideProcessing c1P = true ∧
    runSearch c1P c1B = SearchOutcome.success c1Result ∧
    c1Result.items.length = 1 ∧ c1P.cursor = 0 ∧
    ¬ c1Result.cursor = c1P.cursor + c1Result.items.length := by
  decide

/-- C4: whenever `includeIngredients` or `excludeIngredients` is supplied
(truthy), a fetched batch in which no candidate carries any preview or full
ingredient data makes the pipeline return the capability-mismatch
validation error — whose message names the limitation — rather than a
success with zero items; and when at least one candidate carries ingredient
data, the pipeline proceeds to a success result. -/
theorem c4_capability_mismatch (p : SearchParams) (b : AgentBatch)
    (hreq : (truthyStr p.includeIngredients || truthyStr p.excludeIngredients) = true) :
    (hasIngredientData b.items = false →
      runSearch p b = SearchOutcome.validationError capabilityMismatchMsg ∧
      strContains capabilityMismatchMsg.data
        ("Ingredient include/exclude filtering is not available").data = true) ∧
    (hasIngredientData b.items = true →
      ∃ r, runSearch p b = SearchOutcome.success r) := by
  constructor
  · intro hno
    refine ⟨?_, by decide⟩
    unfold runSearch
    simp only [hreq, hno]
    simp
  · intro hyes
    unfold runSearch
    simp only [hreq, hyes]
    simp

/-- Witness for C4 at a concrete request with an include filter against a
batch with no ingredient data. -/
theorem c4_capability_mismatch_witness :
    (truthyStr c4P.includeIngredients || truthyStr c4P.excludeIngredients) = true ∧
    hasIngredientData c4NoDataB.items = false ∧
    runSearch c4P c4NoDataB = SearchOutcome.validationError capabilityMismatchMsg := by
  have h := c4_capability_mismatch c4P c4NoDataB (by decide)
  exact ⟨by decide, by decide, (h.1 (by decide)).1⟩

/-- C9: for a request with ingredient filters whose strict filtering pass
over the fetched batch yields zero items, if the relaxed pass (always
substring, quote-stripped, over the unfiltered batch) matches at least one
candidate then the result carries the two-entry suggestions sequence whose
first entry contains "No exact matches found" while `items` stays empty;
and if even the relaxed pass matches nothing, no suggestions are
produced. -/
theorem c9_zero_result_suggestions (p : SearchParams) (b : AgentBatch)
    (hreq : (truthyStr p.includeIngredients || truthyStr p.excludeIngredients) = true)
    (hdata : hasIngredientData b.items = true)
    (hempty : (searchableOf b.items).filter
      (fun sp => productPasses (termsOf p.includeIngredients)
        (termsOf p.excludeIngredients) sp.item) = [])
    (r : SearchResult) (hr : runSearch p b = SearchOutcome.success r) :
    (0 < (relaxedMatches (termsOf p.includeIngredients) (termsOf p.excludeIngredients)
        (searchableOf b.items)).length →
      r.items = [] ∧
      r.suggestions = some [noExactMatchesMsg,
        relaxedCountMsg (relaxedMatches (termsOf p.includeIngredients)
          (termsOf p.excludeIngredients) (searchableOf b.items)).length] ∧
      strContains noExactMatchesMsg.data ("No exact matches found").data = true) ∧
    ((relaxedMatches (termsOf p.includeIngredients) (termsOf p.excludeIngredients)
        (searchableOf b.items)).length = 0 →
      r.suggestions = none) := by
  unfold runSearch at hr
  simp only [hreq, hdata, hempty] at hr
  simp only [Bool.not_true, Bool.and_false, Bool.and_true, Bool.false_and,
    Bool.true_and, Bool.false_eq_true, if_false, List.isEmpty_nil, if_true,
    SearchOutcome.success.injEq] at hr
  rw [maybeSort_nil] at hr
  constructor
  · intro hrel
    rw [if_pos hrel] at hr
    subst hr
    refine ⟨?_, ?_, by decide⟩
    · simp [buildResult]
    · simp [buildResult]
  · intro hrel
    rw [if_neg (by omega : ¬ 0 < (relaxedMatches (termsOf p.includeIngredients)
        (termsOf p.excludeIngredients) (searchableOf b.items)).length)] at hr
    subst hr
    simp [buildResult]

/-- Witness for C9: the spec's end-to-end scenario — quoted `"chick"`
against a batch whose ingredient strings contain `chicken` — yields empty
items and the two-entry suggestions sequence. -/
theorem c9_zero_result_suggestions_witness :
    c9Result.items = [] ∧
    c9Result.suggestions = some [noExactMatchesMsg,
      relaxedCountMsg (relaxedMatches (termsOf c9P.includeIngredients)
        (termsOf c9P.excludeIngredients) (searchableOf c9B.items)).length] := by
  have h := c9_zero_result_suggestions c9P c9B (by decide) (by decide) (by decide)
    c9Result (by decide)
  have h1 := h.1 (by decide)
  exact ⟨h1.1, h1.2.1⟩

/-- C10: in client-processed mode the upstream fetch is issued at offset 0
with batch size exactly `2 * limit`; under the schema bounds
`1 ≤ limit ≤ 20` this never exceeds 40, so the 50 default and the 200
ceiling are unreachable; consequently, whenever the upstream honours the
requested batch size, the reported total (the filtered count) never exceeds
`2 * limit` and any cursor ≥ `2 * limit` yields an empty items slice. -/
theorem c10_batch_and_total_bound (p : SearchParams) (b : AgentBatch)
    (hlo : 1 ≤ p.limit) (hhi : p.limit ≤ 20)
    (hmode : needsClientSideProcessing p = true)
    (hup : b.items.length ≤ (apiPlan p).limit) :
    (apiPlan p).offset = 0 ∧
    (apiPlan p).limit = 2 * p.limit ∧
    2 * p.limit ≤ 40 ∧
    2 * p.limit < DEFAULT_BATCH_SIZE ∧
    2 * p.limit < CLIENT_SIDE_PROCESSING_BATCH_SIZE ∧
    ∀ r, runSearch p b = SearchOutcome.success r →
      r.total ≤ 2 * p.limit ∧ (2 * p.limit ≤ p.cursor → r.items = []) := by
  have hplan : apiPlan p = { limit := 2 * p.limit, offset := 0 } := by
    unfold apiPlan batchSize
    rw [hmode, if_pos rfl]
    have hlim : (p.limit != 0) = true := by
      simp only [bne_iff_ne, ne_eq]
      omega
    rw [if_pos hlim]
    have : min (p.limit * 2) CLIENT_SIDE_PROCESSING_BATCH_SIZE = 2 * p.limit := by
      unfold CLIENT_SIDE_PROCESSING_BATCH_SIZE
      omega
    rw [this]
  refine ⟨by rw [hplan], by rw [hplan], by omega,
    by unfold DEFAULT_BATCH_SIZE; omega,
    by unfold CLIENT_SIDE_PROCESSING_BATCH_SIZE; omega,
    fun r hr => ?_⟩
  obtain ⟨pre, note, sugg, hlen, rfl⟩ := runSearch_success_shape p b r hr
  rw [buildResult_client p b (maybeSort p pre) note sugg hmode]
  have hlen2 : (maybeSort p pre).length ≤ 2 * p.limit := by
    rw [maybeSort_length]
    calc pre.length ≤ b.items.length := hlen
      _ ≤ (apiPlan p).limit := hup
      _ = 2 * p.limit := by rw [hplan]
  refine ⟨by simpa using hlen2, fun hcur => ?_⟩
  have hdrop : (maybeSort p pre).drop p.cursor = [] :=
    List.drop_eq_nil_of_le (le_trans hlen2 hcur)
  simp [hdrop]

/-- Witness for C10 at a concrete client-processed request with cursor 2 and
limit 1. -/
theorem c10_batch_and_total_bound_witness :
    1 ≤ c10P.limit ∧ c10P.limit ≤ 20 ∧ needsClientSideProcessing c10P = true ∧
    c1B.items.length ≤ (apiPlan c10P).limit ∧
    (apiPlan c10P).limit = 2 * c10P.limit ∧
    c10Result.items = [] := by
  have h := c10_batch_and_total_bound c10P c1B (by decide) (by decide) (by decide) (by decide)
  refine ⟨by decide, by decide, by decide, by decide, h.2.1, ?_⟩
  exact (h.2.2.2.2.2 c10Result (by decide)).2 (by decide)
